import Mathlib

/-!
Verification of the document-and-tool-call assistant shim in
`server/agent.py` (class `DocumentAssistant` and its operations).

The Python code works on values produced by `json.loads`, so we first embed
the Python/JSON value universe, Python truthiness, `dict.get` and dict
subscripting, including their failure modes (raised exceptions become
`Except.error` / `Option.none`).  `json.loads` itself is an external library
call: a metadata string is represented by its parse outcome, an
`Option PyValue` where `Option.none` stands for "the string is not valid
JSON" (the `json.loads` call raised).
-/

/-- A Python value as produced by `json.loads` (JSON numbers are modelled as
integers; no claim involves numeric payloads).  `null` is Python `None`. -/
inductive PyValue where
  | null : PyValue
  | bool : Bool → PyValue
  | int : Int → PyValue
  | str : String → PyValue
  | list : List PyValue → PyValue
  | dict : List (String × PyValue) → PyValue

/-- Whether a value is Python `None` (JSON `null`). -/
def isNull : PyValue → Bool
  | PyValue.null => true
  | _ => false

/-- Python truthiness (`bool(v)`): `None`, `False`, `0`, `""`, `[]`, `{}` are
falsy, everything else truthy. -/
def truthy : PyValue → Bool
  | PyValue.null => false
  | PyValue.bool b => b
  | PyValue.int n => n != 0
  | PyValue.str s => !s.isEmpty
  | PyValue.list l => !l.isEmpty
  | PyValue.dict d => !d.isEmpty

/-- Python `v.get(key)`: on a non-dict this raises `AttributeError`
(`Except.error`); on a dict it returns the stored value, or `None` when the
key is absent. -/
def pyGet (v : PyValue) (key : String) : Except Unit PyValue :=
  match v with
  | PyValue.dict entries => Except.ok ((entries.lookup key).getD PyValue.null)
  | _ => Except.error ()

/-- Python `v[key]` with a string key: raises (`Option.none`) on a non-dict
(`TypeError`) or a missing key (`KeyError`). -/
def pySubscr (v : PyValue) (key : String) : Option PyValue :=
  match v with
  | PyValue.dict entries => entries.lookup key
  | _ => Option.none

/-- Python `str(v)`, as used by f-string interpolation.  Exact for `None`,
booleans, integers and strings (the only shapes the claims exercise);
container rendering is abbreviated. -/
def pyStr : PyValue → String
  | PyValue.null => "None"
  | PyValue.bool b => if b then "True" else "False"
  | PyValue.int n => toString n
  | PyValue.str s => s
  | PyValue.list _ => "[...]"
  | PyValue.dict _ => "\x7b...\x7d"

/-- The mutable state of `DocumentAssistant`: `self.document_content` and
`self.document_name`, both initialised to `None` in `__init__`. -/
structure DocumentAssistant where
  document_content : PyValue
  document_name : PyValue

/-- `DocumentAssistant.__init__`: both fields start as `None`. -/
def DocumentAssistant.init : DocumentAssistant :=
  { document_content := PyValue.null, document_name := PyValue.null }

/-- `DocumentAssistant.load_document_from_metadata`.  `parsed` is the outcome
of `json.loads(metadata)` (`Option.none` = parse raised).  The whole body is
wrapped in `try/except Exception`, so every raising step returns the state
reached so far: in particular `self.document_content` is assigned BEFORE
`uploaded_file['filename']` is read, so a record with `content` but no
`filename` leaves the content set and the name untouched. -/
def load_document_from_metadata (st : DocumentAssistant) (parsed : Option PyValue) :
    DocumentAssistant :=
  match parsed with
  | Option.none => st
  | Option.some parsed_data =>
    match pyGet parsed_data "uploadedFile" with
    | Except.error _ => st
    | Except.ok uploaded_file =>
      if truthy uploaded_file then
        match pySubscr uploaded_file "content" with
        | Option.none => st
        | Option.some c =>
          match pySubscr uploaded_file "filename" with
          | Option.none => { st with document_content := c }
          | Option.some f => { st with document_content := c, document_name := f }
      else st

/-- The fixed message returned when no document is loaded. -/
def noDocumentMsg : String := "No document has been uploaded at this time."

/-- `DocumentAssistant.get_document_content`: the no-document message when
`self.document_content` is falsy, otherwise the f-string
`Contents of '{name}':\n{content}`. -/
def get_document_content (st : DocumentAssistant) : String :=
  if !(truthy st.document_content) then noDocumentMsg
  else "Contents of '" ++ pyStr st.document_name ++ "':\n" ++ pyStr st.document_content

/-- The parse outcome of the metadata string
`{"uploadedFile":{"filename":F,"content":C}}` (both fields strings). -/
def mkMeta (f c : String) : PyValue :=
  PyValue.dict [("uploadedFile",
    PyValue.dict [("filename", PyValue.str f), ("content", PyValue.str c)])]

/-!
The weather tool.  `fetch_weather` sanitizes the location with
`re.sub(r"[^a-zA-Z0-9]+", " ", location).strip()`, optionally speaks an
acknowledgment (appending it to the chat context), performs one HTTP GET and
either returns a sentence embedding the response body or raises
`RuntimeError` (modelled as `Except.error`).  The single outbound request is
modelled by passing the `HttpResponse` the server answered with.
-/

/-- The regex character class `[a-zA-Z0-9]`: ASCII alphanumeric. -/
def isAlnum (c : Char) : Bool :=
  (97 ≤ c.toNat && c.toNat ≤ 122) || (65 ≤ c.toNat && c.toNat ≤ 90) ||
    (48 ≤ c.toNat && c.toNat ≤ 57)

mutual
/-- `re.sub(r"[^a-zA-Z0-9]+", " ", ·)` over the character list: each maximal
run of non-alphanumeric characters is replaced by a single space
(leftmost-longest, non-overlapping matches of the greedy `+`). -/
def collapseRuns : List Char → List Char
  | [] => []
  | c :: rest =>
    if isAlnum c then c :: collapseRuns rest
    else ' ' :: collapseTail rest

/-- Inside a non-alphanumeric run whose replacement space is already
emitted: skip the rest of the run. -/
def collapseTail : List Char → List Char
  | [] => []
  | c :: rest =>
    if isAlnum c then c :: collapseRuns rest
    else collapseTail rest
end

/-- The ASCII whitespace stripped by Python `str.strip()`.  (Python also
strips further Unicode whitespace, but `strip` is only ever applied to the
regex substitution's output, where every non-alphanumeric character has
already become an ASCII space, so the ASCII set is exact here.) -/
def isPySpace (c : Char) : Bool :=
  c.toNat == 32 || c.toNat == 9 || c.toNat == 10 || c.toNat == 13 ||
    c.toNat == 11 || c.toNat == 12

/-- Python `str.strip()`: remove leading and trailing whitespace. -/
def pyStrip (cs : List Char) : List Char :=
  List.rdropWhile isPySpace (cs.dropWhile isPySpace)

/-- The sanitizer of `fetch_weather`:
`re.sub(r"[^a-zA-Z0-9]+", " ", location).strip()`. -/
def sanitize (location : String) : String :=
  String.mk (pyStrip (collapseRuns location.data))

/-- One entry of the pipeline agent's chat context. -/
structure ChatMessage where
  role : String
  content : String

/-- The response of the single HTTP GET issued by `fetch_weather`. -/
structure HttpResponse where
  status : Nat
  body : String

/-- Whether the chat context is nonempty and its last message is from the
assistant (`messages and messages[-1].role == "assistant"`; `fetch_weather`
tests the negation). -/
def lastIsAssistant (messages : List ChatMessage) : Bool :=
  match messages.getLast? with
  | Option.some m => m.role == "assistant"
  | Option.none => false

/-- The interim acknowledgment `agent.say(status_msg, add_to_chat_ctx=True)`
records: an assistant message with the status text. -/
def ackMessage (sanitized_location : String) : ChatMessage :=
  { role := "assistant"
    content := "Checking weather conditions in " ++ sanitized_location ++ "..." }

/-- `DocumentAssistant.fetch_weather`.  Returns the chat context after the
call together with the outcome: `Except.ok` the returned sentence on
HTTP 200, `Except.error` the `RuntimeError` message otherwise. -/
def fetch_weather (location : String) (messages : List ChatMessage)
    (response : HttpResponse) : List ChatMessage × Except String String :=
  let sanitized_location := sanitize location
  let messages2 :=
    if !(lastIsAssistant messages) then
      messages ++ [ackMessage sanitized_location]
    else messages
  if response.status == 200 then
    (messages2, Except.ok ("The weather in " ++ sanitized_location ++ " is " ++
      response.body ++ "."))
  else
    (messages2, Except.error ("Weather API request failed: " ++
      toString response.status))

/-- Two-digit zero-padded decimal rendering of `n < 100`, as `strftime`'s
`%H`, `%M` and `%S` fields produce. -/
def pad2 (n : Nat) : String :=
  String.mk [Nat.digitChar (n / 10), Nat.digitChar (n % 10)]

/-- Modelled from the spec: the Tool Registry's `get_current_time` operation
is registered by the repository's second copy of the glue script, which is
not under `src/`.  Per the spec it takes no input and returns the local
wall-clock time formatted `HH:MM:SS`; the wall-clock reading is modelled as
the hour/minute/second triple. -/
def get_current_time (h m s : Nat) : String :=
  pad2 h ++ ":" ++ pad2 m ++ ":" ++ pad2 s

/-- Modelled from the spec: the Tool Registry's `get_document_summary`
operation is registered by the repository's second copy of the glue script,
which is not under `src/`.  Per the spec it is identical in behaviour to
`get_document_content` except that the text is returned under a
`Summary of` header; no actual summarization is performed. -/
def get_document_summary (st : DocumentAssistant) : String :=
  if !(truthy st.document_content) then noDocumentMsg
  else "Summary of '" ++ pyStr st.document_name ++ "':\n" ++ pyStr st.document_content

/-- The numeric value of a decimal digit character. -/
def digitVal (c : Char) : Nat := c.toNat - 48

/-- Whether a string matches `HH:MM:SS` with `HH` in `[00, 23]` and `MM`,
`SS` in `[00, 59]`: eight characters, colons at positions 2 and 5, decimal
digits elsewhere, the three two-digit values in range. -/
def isHHMMSS (t : String) : Bool :=
  match t.data with
  | [h1, h2, c1, m1, m2, c2, s1, s2] =>
    h1.isDigit && h2.isDigit && m1.isDigit && m2.isDigit && s1.isDigit &&
      s2.isDigit && c1 == ':' && c2 == ':' &&
      decide (digitVal h1 * 10 + digitVal h2 ≤ 23) &&
      decide (digitVal m1 * 10 + digitVal m2 ≤ 59) &&
      decide (digitVal s1 * 10 + digitVal s2 ≤ 59)
  | _ => false

/-!
A second, spec-side formulation of the sanitizer, to be compared with the
regex model: the spec says the sanitizer "collapses each maximal run of
non-alphanumeric characters to a single space and trims leading/trailing
whitespace" — equivalently, it keeps the maximal alphanumeric runs of the
input and joins them with single spaces.
-/

/-- The maximal runs of ASCII-alphanumeric characters of a string, in
order. -/
def alnumTokens : List Char → List (List Char)
  | [] => []
  | c :: rest =>
    let ts := alnumTokens rest
    if isAlnum c then
      match rest with
      | d :: _ =>
        if isAlnum d then
          match ts with
          | [] => [[c]]
          | t :: more => (c :: t) :: more
        else [c] :: ts
      | [] => [c] :: ts
    else ts

/-- Tokens joined by single spaces. -/
def joinTokens : List (List Char) → List Char
  | [] => []
  | [t] => t
  | t :: ts => t ++ ' ' :: joinTokens ts

/-- The spec's sanitizer: the maximal alphanumeric runs of the input joined
by single spaces (all non-alphanumeric separators collapsed, nothing at the
ends). -/
def sanitizeSpec (location : String) : String :=
  String.mk (joinTokens (alnumTokens location.data))

/-!
Supporting definitions and lemmas for the document-state claims.
-/

/-- The parse outcome of a metadata string that the loader rejects wholesale
(no assignment happens): not valid JSON, or the `uploadedFile` lookup raises
or yields a falsy value, or the `content` subscript raises. -/
def metaRejected (parsed : Option PyValue) : Bool :=
  match parsed with
  | Option.none => true
  | Option.some d =>
    match pyGet d "uploadedFile" with
    | Except.error _ => true
    | Except.ok uploaded_file =>
      if truthy uploaded_file then
        match pySubscr uploaded_file "content" with
        | Option.none => true
        | Option.some _ => false
      else true

/-- The parse outcome of a metadata string that can never desynchronize the
two fields: either the loader rejects it wholesale, or the `uploadedFile`
record carries both a `content` and a `filename` value, the two equally
null/non-null. -/
def okMeta (parsed : Option PyValue) : Bool :=
  match parsed with
  | Option.none => true
  | Option.some d =>
    match pyGet d "uploadedFile" with
    | Except.error _ => true
    | Except.ok uploaded_file =>
      if truthy uploaded_file then
        match pySubscr uploaded_file "content" with
        | Option.none => true
        | Option.some c =>
          match pySubscr uploaded_file "filename" with
          | Option.none => false
          | Option.some f => isNull c == isNull f
      else true

/-- Metadata whose `uploadedFile` record has `content` but no `filename`:
the partial-assignment input. -/
def metaMissingFilename : PyValue :=
  PyValue.dict [("uploadedFile", PyValue.dict [("content", PyValue.str "C")])]

/-! Concrete sanity checks of the embedding. -/

example :
    get_document_content (load_document_from_metadata DocumentAssistant.init
      (Option.some (mkMeta "report.txt" "hello"))) =
    "Contents of 'report.txt':\nhello" := by rfl

example :
    get_document_content (load_document_from_metadata DocumentAssistant.init
      Option.none) = noDocumentMsg := by rfl

example :
    (load_document_from_metadata DocumentAssistant.init
      (Option.some (PyValue.dict [("uploadedFile",
        PyValue.dict [("content", PyValue.str "C")])]))).document_content =
    PyValue.str "C" := by rfl

example : sanitize ("New York!!") = "New York" := by rfl

example : sanitize ("  hello,   world!  ") = "hello world" := by rfl

example :
    (fetch_weather ("Boston") [] { status := 200, body := "Sunny +21C" }).2 =
    Except.ok ("The weather in Boston is Sunny +21C.") := by rfl

example :
    (fetch_weather ("Boston") [] { status := 503, body := "" }).2 =
    Except.error ("Weather API request failed: 503") := by rfl

example : isHHMMSS (get_current_time 9 30 5) = true := by rfl

example : isHHMMSS (get_current_time 23 59 59) = true := by rfl

example : sanitizeSpec ("New York!!") = "New York" := by rfl

example : sanitizeSpec ("  hello,   world!  ") = "hello world" := by rfl

/-! Helper lemmas for the sanitizer equivalence. -/

theorem isPySpace_eq_false_of_isAlnum {c : Char} (h : isAlnum c = true) :
    isPySpace c = false := by
  simp only [isAlnum, Bool.or_eq_true, Bool.and_eq_true, decide_eq_true_eq] at h
  simp only [isPySpace, Bool.or_eq_false_iff, beq_eq_false_iff_ne, ne_eq]
  omega

theorem isPySpace_space : isPySpace ' ' = true := by rfl

theorem rdropWhile_cons_not_space {c : Char} (h : isPySpace c = false)
    (xs : List Char) :
    List.rdropWhile isPySpace (c :: xs) = c :: List.rdropWhile isPySpace xs := by
  unfold List.rdropWhile
  rw [List.reverse_cons, List.dropWhile_append]
  by_cases he : (xs.reverse.dropWhile isPySpace).isEmpty
  · rw [List.isEmpty_iff] at he
    simp [he, h]
  · rw [List.isEmpty_iff] at he
    simp [he, h]

theorem rdropWhile_cons_space (xs : List Char) :
    List.rdropWhile isPySpace (' ' :: xs) =
      if List.rdropWhile isPySpace xs = [] then []
      else ' ' :: List.rdropWhile isPySpace xs := by
  unfold List.rdropWhile
  rw [List.reverse_cons, List.dropWhile_append]
  by_cases he : (xs.reverse.dropWhile isPySpace).isEmpty
  · rw [List.isEmpty_iff] at he
    simp [he, isPySpace_space]
  · rw [List.isEmpty_iff] at he
    simp [he, isPySpace_space]

theorem dropWhile_collapseTail (cs : List Char) :
    (collapseTail cs).dropWhile isPySpace = collapseTail cs := by
  induction cs with
  | nil => rfl
  | cons c rest ih =>
    by_cases hc : isAlnum c
    · simp [collapseTail, hc, List.dropWhile_cons,
        isPySpace_eq_false_of_isAlnum hc]
    · simpa [collapseTail, hc] using ih

theorem collapseRuns_eq_or (cs : List Char) :
    collapseRuns cs = collapseTail cs ∨
      collapseRuns cs = ' ' :: collapseTail cs := by
  cases cs with
  | nil => exact Or.inl rfl
  | cons c rest =>
    by_cases hc : isAlnum c
    · exact Or.inl (by simp [collapseRuns, collapseTail, hc])
    · exact Or.inr (by simp [collapseRuns, collapseTail, hc])

theorem alnumTokens_singleton {c : Char} (hc : isAlnum c = true) :
    alnumTokens [c] = [[c]] := by
  conv_lhs => rw [alnumTokens.eq_def]
  simp [hc, alnumTokens]

theorem alnumTokens_cons_not_alnum {c : Char} (hc : isAlnum c = false)
    (rest : List Char) : alnumTokens (c :: rest) = alnumTokens rest := by
  conv_lhs => rw [alnumTokens.eq_def]
  simp [hc]

theorem alnumTokens_cons_cons_alnum {c d : Char} (hc : isAlnum c = true)
    (hd : isAlnum d = true) (rest : List Char) :
    alnumTokens (c :: d :: rest) =
      match alnumTokens (d :: rest) with
      | [] => [[c]]
      | t :: more => (c :: t) :: more := by
  conv_lhs => rw [alnumTokens.eq_def]
  simp only [hc, hd, if_true]

theorem alnumTokens_cons_cons_sep {c d : Char} (hc : isAlnum c = true)
    (hd : isAlnum d = false) (rest : List Char) :
    alnumTokens (c :: d :: rest) = [c] :: alnumTokens rest := by
  conv_lhs => rw [alnumTokens.eq_def]
  simp only [hc, hd, if_true, Bool.false_eq_true, if_false]
  rw [alnumTokens_cons_not_alnum hd]

theorem alnumTokens_nonempty (cs : List Char) :
    ∀ t ∈ alnumTokens cs, t ≠ [] := by
  induction cs with
  | nil => intro t ht; simp [alnumTokens] at ht
  | cons c rest ih =>
    intro t ht
    by_cases hc : isAlnum c
    · cases rest with
      | nil =>
        rw [alnumTokens_singleton hc] at ht
        simp at ht
        simp [ht]
      | cons d rest2 =>
        by_cases hd : isAlnum d
        · rw [alnumTokens_cons_cons_alnum hc hd] at ht
          rcases hts : alnumTokens (d :: rest2) with _ | ⟨t1, more⟩
          · rw [hts] at ht
            simp at ht
            simp [ht]
          · rw [hts] at ht
            simp only [List.mem_cons] at ht
            rcases ht with rfl | ht
            · simp
            · exact ih t (by rw [hts]; exact List.mem_cons_of_mem _ ht)
        · rw [alnumTokens_cons_cons_sep hc (Bool.eq_false_iff.mpr hd)] at ht
          simp only [List.mem_cons] at ht
          rcases ht with rfl | ht
          · simp
          · exact ih t (by
              rw [alnumTokens_cons_not_alnum (Bool.eq_false_iff.mpr hd)]
              exact ht)
    · rw [alnumTokens_cons_not_alnum (Bool.eq_false_iff.mpr hc)] at ht
      exact ih t ht

theorem joinTokens_eq_nil_iff {ts : List (List Char)}
    (h : ∀ t ∈ ts, t ≠ []) : joinTokens ts = [] ↔ ts = [] := by
  cases ts with
  | nil => simp [joinTokens]
  | cons t more =>
    cases more with
    | nil =>
      simp only [joinTokens, List.cons_ne_nil, iff_false]
      exact h t (by simp)
    | cons t2 more2 => simp [joinTokens]

theorem joinTokens_cons_cons (c : Char) (t : List Char)
    (more : List (List Char)) :
    joinTokens ((c :: t) :: more) = c :: joinTokens (t :: more) := by
  cases more with
  | nil => rfl
  | cons m ms => simp [joinTokens]

theorem rdropWhile_collapseTail_bound :
    ∀ n cs, List.length cs ≤ n →
      List.rdropWhile isPySpace (collapseTail cs) =
        joinTokens (alnumTokens cs) := by
  intro n
  induction n with
  | zero =>
    intro cs hcs
    rw [List.length_eq_zero.mp (Nat.le_zero.mp hcs)]
    rfl
  | succ n ih =>
    intro cs hcs
    cases cs with
    | nil => rfl
    | cons c rest =>
      by_cases hc : isAlnum c
      · rw [show collapseTail (c :: rest) = c :: collapseRuns rest by
          simp [collapseTail, hc]]
        rw [rdropWhile_cons_not_space (isPySpace_eq_false_of_isAlnum hc)]
        cases rest with
        | nil =>
          rw [alnumTokens_singleton hc]
          simp [collapseRuns, joinTokens]
        | cons d rest2 =>
          by_cases hd : isAlnum d
          · have hcoll : collapseRuns (d :: rest2) = collapseTail (d :: rest2) := by
              simp [collapseRuns, collapseTail, hd]
            rw [hcoll, ih (d :: rest2) (by simpa using Nat.le_of_succ_le_succ hcs)]
            rw [alnumTokens_cons_cons_alnum hc hd]
            rcases hts : alnumTokens (d :: rest2) with _ | ⟨t, more⟩
            · simp [joinTokens]
            · rw [joinTokens_cons_cons]
          · have hd' : isAlnum d = false := Bool.eq_false_iff.mpr hd
            rw [show collapseRuns (d :: rest2) = ' ' :: collapseTail rest2 by
              simp [collapseRuns, hd']]
            rw [rdropWhile_cons_space]
            have hlen : List.length rest2 ≤ n := by
              simp only [List.length_cons] at hcs
              omega
            rw [ih rest2 hlen]
            rw [alnumTokens_cons_cons_sep hc hd']
            rcases hts : alnumTokens rest2 with _ | ⟨t, more⟩
            · simp [joinTokens]
            · have hne : joinTokens (t :: more) ≠ [] := by
                have := joinTokens_eq_nil_iff
                  (show ∀ x ∈ t :: more, x ≠ [] by rw [← hts]; exact alnumTokens_nonempty rest2)
                simp [this]
              rw [if_neg hne]
              simp [joinTokens]
      · have hc' : isAlnum c = false := Bool.eq_false_iff.mpr hc
        rw [show collapseTail (c :: rest) = collapseTail rest by
          simp [collapseTail, hc']]
        rw [alnumTokens_cons_not_alnum hc']
        exact ih rest (by simpa using Nat.le_of_succ_le_succ hcs)

theorem pyStrip_collapseRuns (cs : List Char) :
    pyStrip (collapseRuns cs) = joinTokens (alnumTokens cs) := by
  unfold pyStrip
  have hdrop : (collapseRuns cs).dropWhile isPySpace = collapseTail cs := by
    rcases collapseRuns_eq_or cs with h | h
    · rw [h, dropWhile_collapseTail]
    · rw [h, List.dropWhile_cons_of_pos isPySpace_space, dropWhile_collapseTail]
  rw [hdrop, rdropWhile_collapseTail_bound (List.length cs) cs le_rfl]

theorem load_of_metaRejected (st : DocumentAssistant) (parsed : Option PyValue)
    (h : metaRejected parsed = true) :
    load_document_from_metadata st parsed = st := by
  cases parsed with
  | none => rfl
  | some d =>
    simp only [load_document_from_metadata]
    simp only [metaRejected] at h
    cases hg : pyGet d "uploadedFile" with
    | error e => simp
    | ok uploaded_file =>
      rw [hg] at h
      have h2 : (if truthy uploaded_file then
          match pySubscr uploaded_file "content" with
          | Option.none => true
          | Option.some _ => false
        else true) = true := h
      simp only
      by_cases ht : truthy uploaded_file
      · rw [if_pos ht]
        rw [if_pos ht] at h2
        cases hs : pySubscr uploaded_file "content" with
        | none => simp
        | some c => rw [hs] at h2; exact absurd h2 (by simp)
      · rw [if_neg ht]

theorem isNull_iff (v : PyValue) : isNull v = true ↔ v = PyValue.null := by
  cases v <;> simp [isNull]

theorem load_full (st : DocumentAssistant) (d uploaded_file c f : PyValue)
    (hg : pyGet d "uploadedFile" = Except.ok uploaded_file)
    (ht : truthy uploaded_file = true)
    (hc : pySubscr uploaded_file "content" = Option.some c)
    (hf : pySubscr uploaded_file "filename" = Option.some f) :
    load_document_from_metadata st (Option.some d) =
      { st with document_content := c, document_name := f } := by
  simp only [load_document_from_metadata, hg, ht, hc, hf, if_true]

theorem load_partial (st : DocumentAssistant) (d uploaded_file c : PyValue)
    (hg : pyGet d "uploadedFile" = Except.ok uploaded_file)
    (ht : truthy uploaded_file = true)
    (hc : pySubscr uploaded_file "content" = Option.some c)
    (hf : pySubscr uploaded_file "filename" = Option.none) :
    load_document_from_metadata st (Option.some d) =
      { st with document_content := c } := by
  simp only [load_document_from_metadata, hg, ht, hc, hf, if_true]

theorem load_preserves_sync (st : DocumentAssistant) (m : Option PyValue)
    (hok : okMeta m = true)
    (hst : st.document_content = PyValue.null ↔ st.document_name = PyValue.null) :
    ((load_document_from_metadata st m).document_content = PyValue.null ↔
      (load_document_from_metadata st m).document_name = PyValue.null) := by
  cases m with
  | none => exact hst
  | some d =>
    cases hg : pyGet d "uploadedFile" with
    | error e =>
      simp only [load_document_from_metadata, hg]
      exact hst
    | ok uploaded_file =>
      by_cases ht : truthy uploaded_file = true
      · cases hs : pySubscr uploaded_file "content" with
        | none =>
          simp only [load_document_from_metadata, hg, ht, hs, if_true]
          exact hst
        | some c =>
          cases hf : pySubscr uploaded_file "filename" with
          | none =>
            exfalso
            simp only [okMeta, hg, ht, hs, hf, if_true] at hok
            exact Bool.noConfusion hok
          | some f =>
            rw [load_full st d uploaded_file c f hg ht hs hf]
            simp only [okMeta, hg, ht, hs, hf, if_true, beq_iff_eq] at hok
            show c = PyValue.null ↔ f = PyValue.null
            rw [← isNull_iff, ← isNull_iff, hok]
      · have ht2 : truthy uploaded_file = false := Bool.eq_false_iff.mpr ht
        simp only [load_document_from_metadata, hg, ht2, Bool.false_eq_true,
          if_false]
        exact hst

theorem contents_ne_noDocumentMsg (a b : String) :
    "Contents of '" ++ a ++ "':\n" ++ b ≠ noDocumentMsg := by
  intro h
  have hd := congrArg String.data h
  simp only [String.data_append] at hd
  rw [show noDocumentMsg.data =
    'N' :: "o document has been uploaded at this time.".data from rfl] at hd
  simp only [List.cons_append] at hd
  injection hd with h1 _
  exact absurd h1 (by decide)

/-- C1 counterexample: the claim is false at the valid-JSON metadata
`{"uploadedFile":{"content":"C"}}` (which lacks `uploadedFile.filename`):
after loading it the document state is NOT empty (the content is set) and
`get_document_content` does NOT return the fixed no-document message. -/
theorem claim_C1_counterexample :
    ¬ ((load_document_from_metadata DocumentAssistant.init
          (Option.some metaMissingFilename)).document_content = PyValue.null ∧
       (load_document_from_metadata DocumentAssistant.init
          (Option.some metaMissingFilename)).document_name = PyValue.null ∧
       get_document_content (load_document_from_metadata DocumentAssistant.init
          (Option.some metaMissingFilename)) = noDocumentMsg) := by
  intro h
  exact PyValue.noConfusion h.1

/-- C1 (amended): for every metadata string that is not valid JSON, or is
valid JSON whose `uploadedFile` entry is absent, falsy or unreadable, or
whose (truthy) `uploadedFile` record lacks the `content` field,
`load_document_from_metadata` leaves the document state empty (both fields
unset) and a subsequent `get_document_content` returns the fixed
no-document message.  (A record with `content` but no `filename` instead
stores the content and leaves only the name unset.) -/
theorem claim_C1_rejected_metadata_leaves_state_empty (parsed : Option PyValue)
    (h : metaRejected parsed = true) :
    load_document_from_metadata DocumentAssistant.init parsed =
      DocumentAssistant.init ∧
    get_document_content (load_document_from_metadata DocumentAssistant.init
      parsed) = noDocumentMsg := by
  have hl := load_of_metaRejected DocumentAssistant.init parsed h
  exact ⟨hl, by rw [hl]; rfl⟩

/-- C1 witness: valid JSON with no `uploadedFile` entry is rejected and the
state stays empty. -/
theorem claim_C1_witness :
    metaRejected (Option.some (PyValue.dict [])) = true ∧
    (load_document_from_metadata DocumentAssistant.init
        (Option.some (PyValue.dict [])) = DocumentAssistant.init ∧
     get_document_content (load_document_from_metadata DocumentAssistant.init
        (Option.some (PyValue.dict []))) = noDocumentMsg) :=
  ⟨rfl, claim_C1_rejected_metadata_leaves_state_empty
    (Option.some (PyValue.dict [])) rfl⟩

/-- C2 counterexample: the both-present-or-both-absent invariant is false
after a single `load_document_from_metadata` call from the initial state
with the valid-JSON metadata `{"uploadedFile":{"content":"C"}}`: the
content is set while the name stays `None`. -/
theorem claim_C2_counterexample :
    ¬ ((load_document_from_metadata DocumentAssistant.init
          (Option.some metaMissingFilename)).document_content = PyValue.null ↔
       (load_document_from_metadata DocumentAssistant.init
          (Option.some metaMissingFilename)).document_name = PyValue.null) := by
  intro h
  exact PyValue.noConfusion (h.mpr rfl)

/-- C2 (amended): after construction and any sequence of
`load_document_from_metadata` calls in which every metadata is either
rejected wholesale by the loader or carries an `uploadedFile` record with
both a `content` and a `filename` value, equally null/non-null, the
document content and name are both present or both absent. -/
theorem claim_C2_sync_invariant (ms : List (Option PyValue))
    (h : ∀ m ∈ ms, okMeta m = true) :
    ((ms.foldl load_document_from_metadata
        DocumentAssistant.init).document_content = PyValue.null ↔
     (ms.foldl load_document_from_metadata
        DocumentAssistant.init).document_name = PyValue.null) := by
  suffices hgen : ∀ (ns : List (Option PyValue)) (st : DocumentAssistant),
      (∀ m ∈ ns, okMeta m = true) →
      (st.document_content = PyValue.null ↔ st.document_name = PyValue.null) →
      ((ns.foldl load_document_from_metadata st).document_content =
          PyValue.null ↔
        (ns.foldl load_document_from_metadata st).document_name =
          PyValue.null) by
    exact hgen ms DocumentAssistant.init h
      ⟨fun _ => rfl, fun _ => rfl⟩
  intro ns
  induction ns with
  | nil => intro st _ hst; exact hst
  | cons m rest ih =>
    intro st hms hst
    simp only [List.foldl_cons]
    exact ih _ (fun x hx => hms x (List.mem_cons_of_mem _ hx))
      (load_preserves_sync st m (hms m (List.mem_cons_self _ _)) hst)

/-- C2 witness: a well-formed upload followed by an invalid metadata string
keeps both fields in sync (both present). -/
theorem claim_C2_witness :
    (∀ m ∈ [Option.some (mkMeta "F" "C"), (Option.none : Option PyValue)],
      okMeta m = true) ∧
    (([Option.some (mkMeta "F" "C"), Option.none].foldl
        load_document_from_metadata
        DocumentAssistant.init).document_content = PyValue.null ↔
     ([Option.some (mkMeta "F" "C"), Option.none].foldl
        load_document_from_metadata
        DocumentAssistant.init).document_name = PyValue.null) :=
  ⟨by decide, claim_C2_sync_invariant _ (by decide)⟩

theorem isEmpty_false_of_ne {s : String} (h : s ≠ "") : s.isEmpty = false := by
  rw [Bool.eq_false_iff]
  intro hemp
  exact h ((String.isEmpty_iff s).mp hemp)

/-- C3: for every metadata string of the form
`{"uploadedFile":{"filename":F,"content":C}}` with non-empty `F` and `C`,
after `load_document_from_metadata` on it, `get_document_content` returns a
string that contains both `F` and `C`. -/
theorem claim_C3_content_contains_both (f c : String) (hf : f ≠ "")
    (hc : c ≠ "") :
    f.data <:+: (get_document_content (load_document_from_metadata
      DocumentAssistant.init (Option.some (mkMeta f c)))).data ∧
    c.data <:+: (get_document_content (load_document_from_metadata
      DocumentAssistant.init (Option.some (mkMeta f c)))).data := by
  have hload : load_document_from_metadata DocumentAssistant.init
      (Option.some (mkMeta f c)) =
      { document_content := PyValue.str c, document_name := PyValue.str f } :=
    rfl
  rw [hload]
  have htr : truthy (PyValue.str c) = true := by
    simp [truthy, isEmpty_false_of_ne hc]
  have hget : get_document_content
      { document_content := PyValue.str c, document_name := PyValue.str f } =
      "Contents of '" ++ f ++ "':\n" ++ c := by
    simp [get_document_content, htr, pyStr]
  rw [hget]
  constructor
  · exact ⟨"Contents of '".data, "':\n".data ++ c.data, by
      simp [String.data_append]⟩
  · exact ⟨"Contents of '".data ++ f.data ++ "':\n".data, [], by
      simp [String.data_append]⟩

/-- C3 witness at `F := "F"`, `C := "C"`. -/
theorem claim_C3_witness :
    ("F" : String) ≠ "" ∧ ("C" : String) ≠ "" ∧
    (("F" : String).data <:+: (get_document_content
      (load_document_from_metadata DocumentAssistant.init
        (Option.some (mkMeta "F" "C")))).data ∧
     ("C" : String).data <:+: (get_document_content
      (load_document_from_metadata DocumentAssistant.init
        (Option.some (mkMeta "F" "C")))).data) :=
  ⟨by decide, by decide,
    claim_C3_content_contains_both "F" "C" (by decide) (by decide)⟩

/-- C10: `get_document_content` returns the fixed no-document message
exactly when the stored content is empty or unset (`None` or the empty
string), and in particular metadata
`{"uploadedFile":{"filename":F,"content":""}}` stores the filename yet a
subsequent `get_document_content` reports that no document has been
uploaded. -/
theorem claim_C10_no_document_iff_empty_content :
    (∀ st : DocumentAssistant,
      (st.document_content = PyValue.null ∨
        st.document_content = PyValue.str "") →
      get_document_content st = noDocumentMsg) ∧
    (∀ (st : DocumentAssistant) (s : String),
      st.document_content = PyValue.str s → s ≠ "" →
      get_document_content st ≠ noDocumentMsg) ∧
    (∀ f : String,
      (load_document_from_metadata DocumentAssistant.init
        (Option.some (mkMeta f ""))).document_name = PyValue.str f ∧
      get_document_content (load_document_from_metadata
        DocumentAssistant.init (Option.some (mkMeta f ""))) =
        noDocumentMsg) := by
  refine ⟨?_, ?_, ?_⟩
  · intro st h
    have htr : truthy st.document_content = false := by
      rcases h with h | h <;> rw [h] <;> rfl
    simp [get_document_content, htr]
  · intro st s hs hne heq
    have htr : truthy st.document_content = true := by
      rw [hs]; simp [truthy, isEmpty_false_of_ne hne]
    rw [get_document_content] at heq
    rw [htr] at heq
    rw [hs] at heq
    simp only [Bool.not_true, Bool.false_eq_true, if_false, pyStr] at heq
    exact contents_ne_noDocumentMsg (pyStr st.document_name) s heq
  · intro f
    exact ⟨rfl, rfl⟩

/-- C10 witness at `F := "F"`. -/
theorem claim_C10_witness :
    (load_document_from_metadata DocumentAssistant.init
      (Option.some (mkMeta "F" ""))).document_name = PyValue.str "F" ∧
    get_document_content (load_document_from_metadata DocumentAssistant.init
      (Option.some (mkMeta "F" ""))) = noDocumentMsg :=
  claim_C10_no_document_iff_empty_content.2.2 "F"

/-- C4: for every input location string, the sanitization of
`fetch_weather` collapses each maximal run of non-alphanumeric characters
to a single space and trims leading/trailing whitespace — stated as
equality with the independent spec-side formulation `sanitizeSpec`
(maximal alphanumeric runs joined by single spaces) — and in particular
`"New York!!"` sanitizes to `"New York"`. -/
theorem claim_C4_sanitize_collapses_and_trims :
    (∀ location : String, sanitize location = sanitizeSpec location) ∧
    sanitize ("New York!!") = "New York" := by
  constructor
  · intro location
    unfold sanitize sanitizeSpec
    rw [pyStrip_collapseRuns]
  · rfl

/-- C5: for every location, chat context and HTTP 200 response body,
`fetch_weather` returns the sentence embedding the response body verbatim,
and that sentence contains the body and the sanitized location as
substrings. -/
theorem claim_C5_ok_embeds_body_and_location (location : String)
    (messages : List ChatMessage) (response : HttpResponse)
    (h200 : response.status = 200) :
    (fetch_weather location messages response).2 =
      Except.ok ("The weather in " ++ sanitize location ++ " is " ++
        response.body ++ ".") ∧
    response.body.data <:+: ("The weather in " ++ sanitize location ++
      " is " ++ response.body ++ ".").data ∧
    (sanitize location).data <:+: ("The weather in " ++ sanitize location ++
      " is " ++ response.body ++ ".").data := by
  refine ⟨?_, ?_, ?_⟩
  · simp [fetch_weather, h200]
  · exact ⟨"The weather in ".data ++ (sanitize location).data ++ " is ".data,
      ".".data, by simp [String.data_append]⟩
  · exact ⟨"The weather in ".data,
      " is ".data ++ response.body.data ++ ".".data,
      by simp [String.data_append]⟩

/-- C5 witness: location `"Boston"`, body `"Sunny +21°C"`. -/
theorem claim_C5_witness :
    ({ status := 200, body := "Sunny +21°C" } : HttpResponse).status = 200 ∧
    ((fetch_weather ("Boston") [] { status := 200, body := "Sunny +21°C" }).2 =
      Except.ok ("The weather in " ++ sanitize ("Boston") ++ " is " ++
        ({ status := 200, body := "Sunny +21°C" } : HttpResponse).body ++
        ".") ∧
     ({ status := 200, body := "Sunny +21°C" } : HttpResponse).body.data <:+:
       ("The weather in " ++ sanitize ("Boston") ++ " is " ++
        ({ status := 200, body := "Sunny +21°C" } : HttpResponse).body ++
        ".").data ∧
     (sanitize ("Boston")).data <:+:
       ("The weather in " ++ sanitize ("Boston") ++ " is " ++
        ({ status := 200, body := "Sunny +21°C" } : HttpResponse).body ++
        ".").data) :=
  ⟨rfl, claim_C5_ok_embeds_body_and_location ("Boston") []
    { status := 200, body := "Sunny +21°C" } rfl⟩

/-- C6: for every response whose status is not 200, `fetch_weather` fails
with a `RuntimeError` whose message carries the status code (the model makes
exactly one request, so no retry occurs). -/
theorem claim_C6_non200_fails_with_status (location : String)
    (messages : List ChatMessage) (response : HttpResponse)
    (h : response.status ≠ 200) :
    (fetch_weather location messages response).2 =
      Except.error ("Weather API request failed: " ++
        toString response.status) ∧
    (toString response.status).data <:+:
      ("Weather API request failed: " ++ toString response.status).data := by
  constructor
  · have hbeq : (response.status == 200) = false := by
      simp [h]
    simp [fetch_weather, hbeq]
  · exact ⟨"Weather API request failed: ".data, [],
      by simp [String.data_append]⟩

/-- C6 witness: a 503 response yields a failure carrying 503. -/
theorem claim_C6_witness :
    ({ status := 503, body := "" } : HttpResponse).status ≠ 200 ∧
    ((fetch_weather ("Boston") [] { status := 503, body := "" }).2 =
      Except.error ("Weather API request failed: " ++
        toString ({ status := 503, body := "" } : HttpResponse).status) ∧
     (toString ({ status := 503, body := "" } : HttpResponse).status).data <:+:
       ("Weather API request failed: " ++
        toString ({ status := 503, body := "" } : HttpResponse).status).data) :=
  ⟨by decide, claim_C6_non200_fails_with_status ("Boston") []
    { status := 503, body := "" } (by decide)⟩

/-- C7: if the chat context is empty or its last entry is not an assistant
message, `fetch_weather` appends exactly one interim assistant
acknowledgment message (role `assistant`) before the request; if the last
entry is already an assistant message, the context is unchanged. -/
theorem claim_C7_acknowledgment (location : String)
    (messages : List ChatMessage) (response : HttpResponse) :
    (lastIsAssistant messages = false →
      (fetch_weather location messages response).1 =
        messages ++ [ackMessage (sanitize location)]) ∧
    (lastIsAssistant messages = true →
      (fetch_weather location messages response).1 = messages) ∧
    (ackMessage (sanitize location)).role = "assistant" := by
  refine ⟨?_, ?_, rfl⟩ <;> intro h <;>
    cases hst : response.status == 200 <;>
      simp [fetch_weather, h, hst]

/-- C7 witness: from an empty history the acknowledgment is appended. -/
theorem claim_C7_witness :
    lastIsAssistant [] = false ∧
    (fetch_weather ("Paris") [] { status := 200, body := "ok" }).1 =
      [] ++ [ackMessage (sanitize ("Paris"))] :=
  ⟨rfl, (claim_C7_acknowledgment ("Paris") []
    { status := 200, body := "ok" }).1 rfl⟩

theorem digitChar_isDigit_and_val :
    ∀ k, k < 10 → (Nat.digitChar k).isDigit = true ∧
      digitVal (Nat.digitChar k) = k := by decide

/-- C8: for every wall-clock reading (hours below 24, minutes and seconds
below 60), `get_current_time` returns a string matching `HH:MM:SS` with
`HH` in `[00, 23]` and `MM`, `SS` in `[00, 59]`. -/
theorem claim_C8_time_format (h m s : Nat) (hh : h < 24) (hm : m < 60)
    (hs : s < 60) : isHHMMSS (get_current_time h m s) = true := by
  have hdata : (get_current_time h m s).data =
      [Nat.digitChar (h / 10), Nat.digitChar (h % 10), ':',
       Nat.digitChar (m / 10), Nat.digitChar (m % 10), ':',
       Nat.digitChar (s / 10), Nat.digitChar (s % 10)] := by
    simp [get_current_time, pad2]
  have h1 := digitChar_isDigit_and_val (h / 10) (by omega)
  have h2 := digitChar_isDigit_and_val (h % 10) (by omega)
  have h3 := digitChar_isDigit_and_val (m / 10) (by omega)
  have h4 := digitChar_isDigit_and_val (m % 10) (by omega)
  have h5 := digitChar_isDigit_and_val (s / 10) (by omega)
  have h6 := digitChar_isDigit_and_val (s % 10) (by omega)
  unfold isHHMMSS
  rw [hdata]
  simp only [h1.1, h2.1, h3.1, h4.1, h5.1, h6.1, h1.2, h2.2, h3.2, h4.2,
    h5.2, h6.2, Bool.and_eq_true, beq_self_eq_true, decide_eq_true_eq,
    and_true, true_and]
  omega

/-- C8 witness at 23:59:59. -/
theorem claim_C8_witness :
    23 < 24 ∧ 59 < 60 ∧ isHHMMSS (get_current_time 23 59 59) = true :=
  ⟨by decide, by decide,
    claim_C8_time_format 23 59 59 (by decide) (by decide) (by decide)⟩

/-- C9: `get_document_summary` behaves exactly as `get_document_content`
except for the `Summary of` header: for every loaded document with filename
`F` and (non-empty) content `C` it returns the text
`Summary of '<F>':\n<C>`, which contains both `F` and `C`; no actual
summarization is performed. -/
theorem claim_C9_summary_contains_both (f c : String) (hc : c ≠ "") :
    get_document_summary (load_document_from_metadata DocumentAssistant.init
      (Option.some (mkMeta f c))) = "Summary of '" ++ f ++ "':\n" ++ c ∧
    f.data <:+: (get_document_summary (load_document_from_metadata
      DocumentAssistant.init (Option.some (mkMeta f c)))).data ∧
    c.data <:+: (get_document_summary (load_document_from_metadata
      DocumentAssistant.init (Option.some (mkMeta f c)))).data := by
  have hload : load_document_from_metadata DocumentAssistant.init
      (Option.some (mkMeta f c)) =
      { document_content := PyValue.str c, document_name := PyValue.str f } :=
    rfl
  rw [hload]
  have htr : truthy (PyValue.str c) = true := by
    simp [truthy, isEmpty_false_of_ne hc]
  have hget : get_document_summary
      { document_content := PyValue.str c, document_name := PyValue.str f } =
      "Summary of '" ++ f ++ "':\n" ++ c := by
    simp [get_document_summary, htr, pyStr]
  rw [hget]
  refine ⟨rfl, ?_, ?_⟩
  · exact ⟨"Summary of '".data, "':\n".data ++ c.data, by
      simp [String.data_append]⟩
  · exact ⟨"Summary of '".data ++ f.data ++ "':\n".data, [], by
      simp [String.data_append]⟩

/-- C9 witness at `F := "F"`, `C := "C"`. -/
theorem claim_C9_witness :
    ("C" : String) ≠ "" ∧
    (get_document_summary (load_document_from_metadata DocumentAssistant.init
      (Option.some (mkMeta "F" "C"))) = "Summary of '" ++ "F" ++ "':\n" ++
        "C" ∧
     ("F" : String).data <:+: (get_document_summary
      (load_document_from_metadata DocumentAssistant.init
        (Option.some (mkMeta "F" "C")))).data ∧
     ("C" : String).data <:+: (get_document_summary
      (load_document_from_metadata DocumentAssistant.init
        (Option.some (mkMeta "F" "C")))).data) :=
  ⟨by decide, claim_C9_summary_contains_both "F" "C" (by decide)⟩
